import Mathlib

/--
Verification development for the priority-based record reconciliation core
of the repository (src/data.py, class DataFrameUpdater).  The pandas
DataFrame is embedded as a column list together with a list of rows, each
row an association list from column name to cell value.  A cell is either a
string or an integer (the code stores integer priority scores in otherwise
string-valued frames).  Python operations that can raise (reading a missing
key of a row) are embedded with Option: a `none` result of the overall
operation models an exception escaping to the caller, and the second and
third components of the result model the final states of the two
caller-supplied frames (the code assigns new `priority` columns into them
in place, lines 63-64 of src/data.py).
-/
inductive Val where
  | vstr (s : String)
  | vint (n : Int)
deriving DecidableEq, Repr

/-- Python `str(value)` restricted to the two cell shapes used here. -/
def pyStr : Val → String
  | Val.vstr s => s
  | Val.vint n => toString n

/-- Python `str.lower` on the character ranges this repository uses:
ASCII letters and the basic Cyrillic block (А-Я and Ё).  Lean's own
`Char.toLower` only handles ASCII, while the code's priority categories are
Cyrillic, so the Cyrillic case is modelled explicitly. -/
def pyLowerChar (c : Char) : Char :=
  if c.toNat ≥ 65 ∧ c.toNat ≤ 90 then Char.ofNat (c.toNat + 32)
  else if c.toNat ≥ 0x410 ∧ c.toNat ≤ 0x42F then Char.ofNat (c.toNat + 0x20)
  else if c.toNat = 0x401 then Char.ofNat 0x451
  else c

/-- Python `str.lower` (on the ranges modelled by `pyLowerChar`),
written over the underlying character list. -/
def pyLower (s : String) : String :=
  ⟨s.data.map pyLowerChar⟩

/-- A pandas row (Series): association list from column name to cell. -/
abbrev Row : Type := List (String × Val)

/-- Lookup of a key in an association list; models `row[col]` (first hit)
and `dict.get` (dict keys are unique). -/
def alookup {β : Type} : List (String × β) → String → Option β
  | [], _ => none
  | (k, v) :: r, c => if c = k then some v else alookup r c

/-- Replace the value of every entry with key `c`; helper for `setCol`. -/
def replaceCol (c : String) (v : Val) : Row → Row
  | [] => []
  | (k, w) :: r =>
    if k = c then (c, v) :: replaceCol c v r else (k, w) :: replaceCol c v r

/-- Pandas assignment `row[col] = v` / `df[col] = ...`: overwrite the
column when it exists, otherwise append it at the end. -/
def setCol (c : String) (v : Val) (r : Row) : Row :=
  if (alookup r c).isSome then replaceCol c v r else r ++ [(c, v)]

/-- Source lines 8-14: the module-level PRIORITY_MAP dictionary. -/
def PRIORITY_MAP : List (String × Int) :=
  [("важно", 5), ("очень важно", 4), ("средне", 3), ("не очень", 2), ("пусто", 1)]

/-- Source lines 58-61, the nested helper of compare_and_update_dataframe:
`value = str(value).lower(); return self.priority_map.get(value, 0)`. -/
def get_priority (priority_map : List (String × Int)) (v : Val) : Int :=
  (alookup priority_map (pyLower (pyStr v))).getD 0

/-- Modelled from the spec, NOT from the source: section 4.1 step 1 says
the priority score is `ranking(normalize(value_attribute))` "where
normalize lower-cases and trims the raw string".  These definitions follow
the spec words; the source's `get_priority` (lines 58-61) lower-cases but
never trims.  Used only to compare spec against code.  Trimming removes
leading and trailing whitespace, as Python strip does. -/
def spec_trim (s : String) : String :=
  ⟨((s.data.dropWhile Char.isWhitespace).reverse.dropWhile Char.isWhitespace).reverse⟩

/-- Modelled from the spec: normalize = lower-case AND trim (section 4.1
step 1).  The trimming half has no counterpart in the source. -/
def spec_normalize (s : String) : String :=
  spec_trim (pyLower s)

/-- Modelled from the spec: the priority score of section 4.1 step 1,
built on `spec_normalize` (which trims, unlike the code). -/
def spec_priority (priority_map : List (String × Int)) (v : Val) : Int :=
  (alookup priority_map (spec_normalize (pyStr v))).getD 0

/-- A pandas DataFrame: ordered column names plus ordered rows. -/
structure DF where
  cols : List String
  rows : List Row
deriving DecidableEq, Repr

/-- Source lines 17-35: class DataFrameUpdater and its constructor. -/
structure DataFrameUpdater where
  ip_col : String
  computer_name_col : String
  value_col : String
  priority_map : List (String × Int)
deriving DecidableEq, Repr

/-- Source line 53: `all(col in df1.columns and col in df2.columns for col
in [self.ip_col, self.computer_name_col, self.value_col])`. -/
def requiredPresent (u : DataFrameUpdater) (df1 df2 : DF) : Bool :=
  decide (u.ip_col ∈ df1.cols ∧ u.ip_col ∈ df2.cols ∧
    u.computer_name_col ∈ df1.cols ∧ u.computer_name_col ∈ df2.cols ∧
    u.value_col ∈ df1.cols ∧ u.value_col ∈ df2.cols)

/-- Source lines 63-64: `df['priority'] = df[value_col].apply(get_priority)`.
Appends (or overwrites) a `priority` column holding the integer score of
each row's value cell.  A missing cell is pandas NaN, whose `str()` is
"nan", hence the default. -/
def addPriority (u : DataFrameUpdater) (df : DF) : DF :=
  ⟨if "priority" ∈ df.cols then df.cols else df.cols ++ ["priority"],
   df.rows.map (fun r =>
     setCol "priority"
       (Val.vint (get_priority u.priority_map ((alookup r u.value_col).getD (Val.vstr "nan")))) r)⟩

/-- The composite join key of a row: the pair of its cells in the two key
columns (source line 70: `on=[self.ip_col, self.computer_name_col]`). -/
def keyOf (u : DataFrameUpdater) (r : Row) : Option Val × Option Val :=
  (alookup r u.ip_col, alookup r u.computer_name_col)

/-- The source rows whose join key equals the key of `t`, in source order
(the right side of the pandas left merge, lines 67-74). -/
def matchesFor (u : DataFrameUpdater) (srows : List Row) (t : Row) : List Row :=
  srows.filter (fun s => decide (keyOf u t = keyOf u s))

/-- One target row's contribution to the left merge (lines 67-74): with no
match it survives alone (indicator `left_only`, modelled as `none`),
otherwise one merged row per matching source row (indicator `both`). -/
def pairsFor (u : DataFrameUpdater) (srows : List Row) (t : Row) : List (Row × Option Row) :=
  let ms := matchesFor u srows t
  if ms.isEmpty then [(t, none)] else ms.map (fun s => (t, some s))

/-- Source lines 67-74: the rows of `pd.merge(df1, df2, on=keys,
how='left', indicator=True)`, as (target row, optional source row) pairs
in left-frame order, matches in right-frame order. -/
def mergePairs (u : DataFrameUpdater) (srows : List Row) : List Row → List (Row × Option Row)
  | [] => []
  | t :: ts => pairsFor u srows t ++ mergePairs u srows ts

/-- Source lines 81-83, the loop body of update_row:
`for col in df2.columns: if col not in [ip, name, 'priority']:
row[col] = row[f'{col}_df2']`.  After the merge the suffixed name
`col_df2` exists exactly when `col` is a column of BOTH frames (overlap is
suffixed; a column present only in df2 keeps its plain name), so for a
df2-only column the read raises KeyError — modelled by `none`. -/
def applyCols (ip nm : String) (d1c : List String) (s : Row) : List String → Row → Option Row
  | [], acc => some acc
  | c :: rest, acc =>
    if c = ip ∨ c = nm ∨ c = "priority" then applyCols ip nm d1c s rest acc
    else if c ∈ d1c then
      match alookup s c with
      | some v => applyCols ip nm d1c s rest (setCol c v acc)
      | none => none
    else none

/-- Source lines 77-84: update_row on one merged row.  `left_only` rows
pass through; `both` rows are rewritten from the source side when
`row['priority'] < row['priority_df2']` holds strictly. -/
def update_row (u : DataFrameUpdater) (d1c d2c : List String) (t : Row) (s? : Option Row) :
    Option Row :=
  match s? with
  | none => some t
  | some s =>
    match alookup t "priority", alookup s "priority" with
    | some (Val.vint p1), some (Val.vint p2) =>
      if p1 < p2 then applyCols u.ip_col u.computer_name_col d1c s d2c t else some t
    | _, _ => none

/-- `merged.apply(update_row, axis=1)` (line 86): apply a fallible
row transform to every row; any raise aborts the whole application. -/
def mapOptM {α β : Type} (f : α → Option β) : List α → Option (List β)
  | [] => some []
  | a :: l =>
    match f a, mapOptM f l with
    | some b, some bs => some (b :: bs)
    | _, _ => none

/-- Source lines 92-93: `df1_updated[existing_cols]` — select the listed
columns of a row, in order. -/
def projectRow (cols : List String) (r : Row) : Row :=
  cols.map (fun c => (c, (alookup r c).getD (Val.vstr "nan")))

/-- Source lines 37-96: compare_and_update_dataframe.  Returns
(result, final df1, final df2): the result is `none` when the per-row
update raised (KeyError on a df2-only column), and the two trailing
components are the caller's frames after the in-place `priority`
assignments of lines 63-64.  On the validation failure of lines 53-55 the
original df1 is returned and neither frame is touched. -/
def compare_and_update_dataframe (u : DataFrameUpdater) (df1 df2 : DF) :
    Option DF × DF × DF :=
  if requiredPresent u df1 df2 then
    let df1p := addPriority u df1
    let df2p := addPriority u df2
    match mapOptM (fun ts => update_row u df1p.cols df2p.cols ts.1 ts.2)
        (mergePairs u df2p.rows df1p.rows) with
    | none => (none, df1p, df2p)
    | some updated =>
      let outCols := df1p.cols.filter (fun c => decide (c ≠ "priority"))
      (some ⟨outCols, updated.map (projectRow outCols)⟩, df1p, df2p)
  else (some df1, df1, df2)

-- Shared helper lemmas about the association-list primitives.

lemma alookup_isSome_of_mem {r : Row} {c : String} (h : c ∈ r.map Prod.fst) :
    (alookup r c).isSome := by
  induction r with
  | nil => simp at h
  | cons p r ih =>
    obtain ⟨k, v⟩ := p
    simp only [List.map_cons, List.mem_cons] at h
    by_cases hc : c = k
    · simp [alookup, hc]
    · simp only [alookup, if_neg hc]
      exact ih (h.resolve_left hc)

lemma alookup_mem {β : Type} {l : List (String × β)} {k : String} {b : β}
    (h : alookup l k = some b) : (k, b) ∈ l := by
  induction l with
  | nil => simp [alookup] at h
  | cons p l ih =>
    obtain ⟨k0, v0⟩ := p
    simp only [alookup] at h
    by_cases hk : k = k0
    · rw [if_pos hk] at h
      obtain rfl := Option.some_injective _ h
      simp [hk]
    · rw [if_neg hk] at h
      exact List.mem_cons_of_mem _ (ih h)

lemma alookup_replaceCol_other {c' c : String} (h : c' ≠ c) (v : Val) :
    ∀ r : Row, alookup (replaceCol c v r) c' = alookup r c'
  | [] => rfl
  | (k, w) :: r => by
    by_cases hk : k = c
    · have hck : ¬c' = k := fun hc => h (hc.trans hk)
      simp only [replaceCol, if_pos hk, alookup, if_neg h, if_neg hck]
      exact alookup_replaceCol_other h v r
    · simp only [replaceCol, if_neg hk, alookup]
      by_cases hck : c' = k
      · simp [hck]
      · rw [if_neg hck, if_neg hck]
        exact alookup_replaceCol_other h v r

lemma alookup_replaceCol_self {c : String} (v : Val) :
    ∀ r : Row, (alookup r c).isSome → alookup (replaceCol c v r) c = some v
  | [], h => by simp [alookup] at h
  | (k, w) :: r, h => by
    by_cases hk : k = c
    · simp [replaceCol, if_pos hk, alookup]
    · have hck : ¬c = k := fun hc => hk hc.symm
      simp only [alookup, if_neg hck] at h
      simp only [replaceCol, if_neg hk, alookup, if_neg hck]
      exact alookup_replaceCol_self v r h

lemma alookup_append_right {c : String} {v : Val} :
    ∀ r : Row, alookup r c = none → alookup (r ++ [(c, v)]) c = some v
  | [], _ => by simp [alookup]
  | (k, w) :: r, h => by
    simp only [alookup] at h
    by_cases hck : c = k
    · simp [hck] at h
    · simp only [if_neg hck] at h
      simp only [List.cons_append, alookup, if_neg hck]
      exact alookup_append_right r h

lemma alookup_append_other {c' c : String} {v : Val} (h : c' ≠ c) :
    ∀ r : Row, alookup (r ++ [(c, v)]) c' = alookup r c'
  | [] => by simp [alookup, h]
  | (k, w) :: r => by
    simp only [List.cons_append, alookup]
    by_cases hck : c' = k
    · simp [hck]
    · rw [if_neg hck, if_neg hck]
      exact alookup_append_other h r

lemma alookup_setCol_self (c : String) (v : Val) (r : Row) :
    alookup (setCol c v r) c = some v := by
  unfold setCol
  by_cases h : (alookup r c).isSome
  · rw [if_pos h]
    exact alookup_replaceCol_self v r h
  · rw [if_neg h]
    rw [Option.not_isSome_iff_eq_none] at h
    exact alookup_append_right r h

lemma alookup_setCol_other {c' c : String} (h : c' ≠ c) (v : Val) (r : Row) :
    alookup (setCol c v r) c' = alookup r c' := by
  unfold setCol
  by_cases hs : (alookup r c).isSome
  · rw [if_pos hs]
    exact alookup_replaceCol_other h v r
  · rw [if_neg hs]
    exact alookup_append_other h r

lemma keyOf_setCol {u : DataFrameUpdater} (h1 : u.ip_col ≠ "priority")
    (h2 : u.computer_name_col ≠ "priority") (v : Val) (r : Row) :
    keyOf u (setCol "priority" v r) = keyOf u r := by
  unfold keyOf
  rw [alookup_setCol_other h1, alookup_setCol_other h2]

lemma mapOptM_length {α β : Type} (f : α → Option β) :
    ∀ (l : List α) (ys : List β), mapOptM f l = some ys → ys.length = l.length
  | [], ys, h => by
    simp only [mapOptM] at h
    obtain rfl := Option.some_injective _ h
    rfl
  | a :: l, ys, h => by
    simp only [mapOptM] at h
    cases hf : f a with
    | none => rw [hf] at h; exact absurd h (by simp)
    | some b =>
      cases hm : mapOptM f l with
      | none => rw [hf, hm] at h; exact absurd h (by simp)
      | some bs =>
        rw [hf, hm] at h
        obtain rfl := Option.some_injective _ h
        simp [mapOptM_length f l bs hm]

lemma mapOptM_mem {α β : Type} (f : α → Option β) :
    ∀ (l : List α) (ys : List β), mapOptM f l = some ys →
      ∀ x ∈ l, ∃ y ∈ ys, f x = some y
  | [], ys, h, x, hx => by simp at hx
  | a :: l, ys, h, x, hx => by
    simp only [mapOptM] at h
    cases hf : f a with
    | none => rw [hf] at h; exact absurd h (by simp)
    | some b =>
      cases hm : mapOptM f l with
      | none => rw [hf, hm] at h; exact absurd h (by simp)
      | some bs =>
        rw [hf, hm] at h
        obtain rfl := Option.some_injective _ h
        rcases List.mem_cons.mp hx with rfl | hx
        · exact ⟨b, List.mem_cons_self b bs, hf⟩
        · obtain ⟨y, hy, hfy⟩ := mapOptM_mem f l bs hm x hx
          exact ⟨y, List.mem_cons_of_mem _ hy, hfy⟩

lemma mapOptM_of_all_some {α β : Type} (f : α → Option β) (g : α → β) :
    ∀ l : List α, (∀ x ∈ l, f x = some (g x)) → mapOptM f l = some (l.map g)
  | [], _ => rfl
  | a :: l, h => by
    have ha := h a (List.mem_cons_self a l)
    have hl := mapOptM_of_all_some f g l (fun x hx => h x (List.mem_cons_of_mem a hx))
    simp only [mapOptM, ha, hl, List.map_cons]

lemma filter_eq_nil_of_false {α : Type} (p : α → Bool) :
    ∀ l : List α, (∀ x ∈ l, p x = false) → l.filter p = []
  | [], _ => rfl
  | a :: l, h => by
    simp only [List.filter, h a (List.mem_cons_self a l)]
    exact filter_eq_nil_of_false p l (fun x hx => h x (List.mem_cons_of_mem a hx))

lemma filter_key_single {α β : Type} [DecidableEq β] (f : α → β) :
    ∀ (l : List α) (a : α), (l.map f).Nodup → a ∈ l →
      l.filter (fun x => decide (f a = f x)) = [a]
  | [], a, _, ha => by simp at ha
  | b :: l, a, hnd, ha => by
    simp only [List.map_cons, List.nodup_cons] at hnd
    rcases List.mem_cons.mp ha with rfl | ha
    · rw [List.filter_cons_of_pos (by simp)]
      congr 1
      exact filter_eq_nil_of_false _ l (fun x hx => by
        simp only [decide_eq_false_iff_not]
        intro hfa
        exact hnd.1 (hfa ▸ List.mem_map_of_mem f hx))
    · have hfab : f a ≠ f b := by
        intro hfa
        exact hnd.1 (hfa ▸ List.mem_map_of_mem f ha)
      rw [List.filter_cons_of_neg (by simp [hfab])]
      exact filter_key_single f l a hnd.2 ha

lemma mergePairs_mem {u : DataFrameUpdater} {srows : List Row} :
    ∀ {trows : List Row} {t : Row} {p : Row × Option Row},
      t ∈ trows → p ∈ pairsFor u srows t → p ∈ mergePairs u srows trows
  | t0 :: ts, t, p, ht, hp => by
    rcases List.mem_cons.mp ht with rfl | ht
    · exact List.mem_append_left _ hp
    · exact List.mem_append_right _ (mergePairs_mem ht hp)

lemma mergePairs_length {u : DataFrameUpdater} {srows : List Row} :
    ∀ trows : List Row, (∀ t ∈ trows, (matchesFor u srows t).length ≤ 1) →
      (mergePairs u srows trows).length = trows.length
  | [], _ => rfl
  | t :: ts, h => by
    have hlen : (pairsFor u srows t).length = 1 := by
      unfold pairsFor
      cases hm : matchesFor u srows t with
      | nil => simp
      | cons m ms =>
        have := h t (List.mem_cons_self t ts)
        rw [hm] at this
        simp only [List.length_cons] at this
        have hms : ms = [] := List.eq_nil_of_length_eq_zero (by omega)
        subst hms
        simp
    simp only [mergePairs, List.length_append, hlen,
      mergePairs_length ts (fun x hx => h x (List.mem_cons_of_mem t hx)), List.length_cons]
    omega

lemma mergePairs_of_self_match {u : DataFrameUpdater} {srows : List Row} :
    ∀ trows : List Row, (∀ t ∈ trows, matchesFor u srows t = [t]) →
      mergePairs u srows trows = trows.map (fun t => (t, some t))
  | [], _ => rfl
  | t :: ts, h => by
    have ht := h t (List.mem_cons_self t ts)
    have ih := mergePairs_of_self_match ts (fun x hx => h x (List.mem_cons_of_mem t hx))
    simp only [mergePairs, pairsFor, ht, List.isEmpty_cons, List.map_cons,
      Bool.false_eq_true, if_false, List.map_nil, List.singleton_append, ih]

lemma alookup_projectRow {c : String} {r : Row} :
    ∀ cols : List String, c ∈ cols →
      alookup (projectRow cols r) c = some ((alookup r c).getD (Val.vstr "nan"))
  | c0 :: cols, hc => by
    simp only [projectRow, List.map_cons, alookup]
    by_cases h : c = c0
    · rw [if_pos h, h]
    · rw [if_neg h]
      exact alookup_projectRow cols ((List.mem_cons.mp hc).resolve_left h)

lemma projectRow_congr {r r' : Row} :
    ∀ cols : List String, (∀ c ∈ cols, alookup r' c = alookup r c) →
      projectRow cols r' = projectRow cols r
  | [], _ => rfl
  | c :: cols, h => by
    simp only [projectRow, List.map_cons, List.cons.injEq]
    refine ⟨by rw [h c (List.mem_cons_self c cols)], ?_⟩
    exact projectRow_congr cols (fun x hx => h x (List.mem_cons_of_mem c hx))

lemma projectRow_self :
    ∀ (r : Row) (cols : List String), r.map Prod.fst = cols → cols.Nodup →
      projectRow cols r = r
  | [], cols, hmap, _ => by
    simp only [List.map_nil] at hmap
    rw [← hmap]
    rfl
  | (k, v) :: r, cols, hmap, hnd => by
    simp only [List.map_cons] at hmap
    subst hmap
    simp only [List.nodup_cons] at hnd
    have hhead : alookup ((k, v) :: r) k = some v := by simp [alookup]
    simp only [projectRow, List.map_cons, hhead, Option.getD_some,
      List.cons.injEq, true_and]
    have hco : ∀ c ∈ r.map Prod.fst, alookup ((k, v) :: r) c = alookup r c := by
      intro c hc
      have hck : ¬c = k := fun h => hnd.1 (h ▸ hc)
      simp [alookup, hck]
    calc (r.map Prod.fst).map (fun c => (c, (alookup ((k, v) :: r) c).getD (Val.vstr "nan")))
        = projectRow (r.map Prod.fst) ((k, v) :: r) := rfl
      _ = projectRow (r.map Prod.fst) r := projectRow_congr _ hco
      _ = r := projectRow_self r (r.map Prod.fst) rfl hnd.2

/-- Characterization of a successful run of the update loop: every
non-key, non-priority column of df2 now reads the source value, and every
other cell of the accumulated row was left alone. -/
lemma applyCols_lookup (ip nm : String) (d1c : List String) (s : Row) :
    ∀ (L : List String) (acc r : Row), applyCols ip nm d1c s L acc = some r →
      ((∀ c ∈ L, ¬(c = ip ∨ c = nm ∨ c = "priority") → alookup r c = alookup s c) ∧
       (∀ c, (c ∉ L ∨ c = ip ∨ c = nm ∨ c = "priority") → alookup r c = alookup acc c))
  | [], acc, r, h => by
    simp only [applyCols] at h
    obtain rfl := Option.some_injective _ h
    exact ⟨by simp, fun c _ => rfl⟩
  | c0 :: L, acc, r, h => by
    simp only [applyCols] at h
    by_cases hkey : c0 = ip ∨ c0 = nm ∨ c0 = "priority"
    · rw [if_pos hkey] at h
      obtain ⟨ih1, ih2⟩ := applyCols_lookup ip nm d1c s L acc r h
      refine ⟨fun c hc hne => ?_, fun c hc => ?_⟩
      · rcases List.mem_cons.mp hc with rfl | hc
        · exact absurd hkey hne
        · exact ih1 c hc hne
      · rcases hc with hc | hc | hc | hc
        · exact ih2 c (Or.inl (fun hm => hc (List.mem_cons_of_mem c0 hm)))
        · exact ih2 c (Or.inr (Or.inl hc))
        · exact ih2 c (Or.inr (Or.inr (Or.inl hc)))
        · exact ih2 c (Or.inr (Or.inr (Or.inr hc)))
    · rw [if_neg hkey] at h
      by_cases hd1 : c0 ∈ d1c
      · rw [if_pos hd1] at h
        cases hs : alookup s c0 with
        | none => rw [hs] at h; exact absurd h (by simp)
        | some v =>
          rw [hs] at h
          obtain ⟨ih1, ih2⟩ := applyCols_lookup ip nm d1c s L (setCol c0 v acc) r h
          refine ⟨fun c hc hne => ?_, fun c hc => ?_⟩
          · rcases List.mem_cons.mp hc with rfl | hc
            · by_cases hcL : c ∈ L
              · exact ih1 c hcL hne
              · rw [ih2 c (Or.inl hcL), alookup_setCol_self, hs]
            · exact ih1 c hc hne
          · have hcc0 : c ≠ c0 := by
              rcases hc with hc | hc | hc | hc
              · exact fun he => hc (he ▸ List.mem_cons_self c0 L)
              · exact fun he => hkey (Or.inl (he ▸ hc))
              · exact fun he => hkey (Or.inr (Or.inl (he ▸ hc)))
              · exact fun he => hkey (Or.inr (Or.inr (he ▸ hc)))
            have : alookup r c = alookup (setCol c0 v acc) c := by
              rcases hc with hc | hc | hc | hc
              · exact ih2 c (Or.inl (fun hm => hc (List.mem_cons_of_mem c0 hm)))
              · exact ih2 c (Or.inr (Or.inl hc))
              · exact ih2 c (Or.inr (Or.inr (Or.inl hc)))
              · exact ih2 c (Or.inr (Or.inr (Or.inr hc)))
            rw [this, alookup_setCol_other hcc0]
      · rw [if_neg hd1] at h
        exact absurd h (by simp)

/-- The update loop succeeds whenever every non-key, non-priority column
of df2 is also a column of df1 and has a cell in the source row. -/
lemma applyCols_isSome (ip nm : String) (d1c : List String) (s : Row) :
    ∀ (L : List String) (acc : Row),
      (∀ c ∈ L, ¬(c = ip ∨ c = nm ∨ c = "priority") →
        c ∈ d1c ∧ (alookup s c).isSome) →
      (applyCols ip nm d1c s L acc).isSome
  | [], acc, _ => by simp [applyCols]
  | c0 :: L, acc, h => by
    simp only [applyCols]
    by_cases hkey : c0 = ip ∨ c0 = nm ∨ c0 = "priority"
    · rw [if_pos hkey]
      exact applyCols_isSome ip nm d1c s L acc
        (fun c hc hne => h c (List.mem_cons_of_mem c0 hc) hne)
    · rw [if_neg hkey]
      obtain ⟨hd1, hsome⟩ := h c0 (List.mem_cons_self c0 L) hkey
      rw [if_pos hd1]
      cases hs : alookup s c0 with
      | none => rw [hs] at hsome; simp at hsome
      | some v =>
        exact applyCols_isSome ip nm d1c s L (setCol c0 v acc)
          (fun c hc hne => h c (List.mem_cons_of_mem c0 hc) hne)

-- Concrete inputs used by witnesses and counterexamples, built over the
-- configuration of the example in src/data.py lines 100-130.

/-- The updater of the usage example (src/data.py line 124). -/
def exU : DataFrameUpdater :=
  ⟨"ip", "computer_name", "ценность", PRIORITY_MAP⟩

/-- A record with the three required columns. -/
def exRow (i n v : String) : Row :=
  [("ip", Val.vstr i), ("computer_name", Val.vstr n), ("ценность", Val.vstr v)]

/-- Target with one record, key (a, b), value пусто (rank 1). -/
def exT23 : DF := ⟨["ip", "computer_name", "ценность"], [exRow "a" "b" "пусто"]⟩

/-- Source with two records carrying the same key (a, b): ranks 5 and 3. -/
def exS23 : DF :=
  ⟨["ip", "computer_name", "ценность"],
   [exRow "a" "b" "важно", exRow "a" "b" "средне"]⟩

/-- Target with one record of key (a, b) and rank 1. -/
def exT4 : DF := ⟨["ip", "computer_name", "ценность"], [exRow "a" "b" "пусто"]⟩

/-- Source with one record of key (a, b) and rank 5. -/
def exS4 : DF := ⟨["ip", "computer_name", "ценность"], [exRow "a" "b" "важно"]⟩

/-- Target lacking the value column ценность. -/
def exT5 : DF :=
  ⟨["ip", "computer_name"], [[("ip", Val.vstr "a"), ("computer_name", Val.vstr "b")]]⟩

/-- Source with an extra column z that the target does not have. -/
def exS7 : DF :=
  ⟨["ip", "computer_name", "ценность", "z"],
   [[("ip", Val.vstr "a"), ("computer_name", Val.vstr "b"),
     ("ценность", Val.vstr "важно"), ("z", Val.vstr "xx")]]⟩

/-- Target whose two records share the key (a, b) with ranks 1 and 5. -/
def exT9 : DF :=
  ⟨["ip", "computer_name", "ценность"],
   [exRow "a" "b" "пусто", exRow "a" "b" "важно"]⟩

/-- Target with two records of pairwise distinct keys. -/
def exT9w : DF :=
  ⟨["ip", "computer_name", "ценность"],
   [exRow "a" "b" "пусто", exRow "c" "d" "важно"]⟩

/-- Target with one record whose key (z, z) matches nothing in exS4. -/
def exT8 : DF := ⟨["ip", "computer_name", "ценность"], [exRow "z" "z" "пусто"]⟩

/-- C10: the default priority ranking maps (after lower-casing) важно to 5,
очень важно to 4, средне to 3, не очень to 2 and пусто to 1, and every
other string to 0; in particular важно strictly outranks очень важно under
the default ranking. -/
theorem c10_default_priority_map (s : String)
    (h : alookup PRIORITY_MAP (pyLower s) = none) :
    get_priority PRIORITY_MAP (Val.vstr "важно") = 5 ∧
    get_priority PRIORITY_MAP (Val.vstr "очень важно") = 4 ∧
    get_priority PRIORITY_MAP (Val.vstr "средне") = 3 ∧
    get_priority PRIORITY_MAP (Val.vstr "не очень") = 2 ∧
    get_priority PRIORITY_MAP (Val.vstr "пусто") = 1 ∧
    get_priority PRIORITY_MAP (Val.vstr "ВАЖНО") = 5 ∧
    get_priority PRIORITY_MAP (Val.vstr s) = 0 ∧
    get_priority PRIORITY_MAP (Val.vstr "очень важно") <
      get_priority PRIORITY_MAP (Val.vstr "важно") := by
  refine ⟨by decide, by decide, by decide, by decide, by decide, by decide, ?_, by decide⟩
  simp only [get_priority, pyStr]
  rw [h]
  rfl

/-- Witness for C10 at the unranked string data1. -/
theorem c10_witness : get_priority PRIORITY_MAP (Val.vstr "data1") = 0 :=
  (c10_default_priority_map "data1" (by decide)).2.2.2.2.2.2.1

/-- C6 counterexample: the code normalizes by lower-casing ONLY; it never
trims.  On the value string " важно " (with surrounding spaces) the code
scores 0, while the spec's normalize (lower-case AND trim, section 4.1
step 1) would look up важно and score 5.  This refutes the claim that the
priority score equals ranking(normalize(value)) with a trimming
normalize. -/
theorem c6_counterexample :
    get_priority PRIORITY_MAP (Val.vstr " важно ") = 0 ∧
    spec_priority PRIORITY_MAP (Val.vstr " важно ") = 5 :=
  ⟨by decide, by decide⟩

/-- C6 (amended): the priority score is ranking(lowercase(str(value)))
with NO trimming; an entry whose lower-cased string is not a key of the
ranking scores exactly 0, strictly lower than the score of any entry
recognized by a ranking whose explicit ranks are all at least 1 (as in the
default ranking, whose lowest explicit rank is 1). -/
theorem c6_priority_rule (pm : List (String × Int)) (v w : Val) (r : Int)
    (hpos : ∀ e ∈ pm, 1 ≤ e.2)
    (hv : alookup pm (pyLower (pyStr v)) = none)
    (hw : alookup pm (pyLower (pyStr w)) = some r) :
    get_priority pm v = 0 ∧ get_priority pm w = r ∧
      get_priority pm v < get_priority pm w := by
  have h1 : get_priority pm v = 0 := by
    unfold get_priority
    rw [hv]
    rfl
  have h2 : get_priority pm w = r := by
    unfold get_priority
    rw [hw]
    rfl
  refine ⟨h1, h2, ?_⟩
  rw [h1, h2]
  have := hpos (pyLower (pyStr w), r) (alookup_mem hw)
  simp only at this
  omega

/-- Witness for C6 (amended): the untrimmed string scores 0, strictly
below the rank-1 category пусто. -/
theorem c6_witness :
    get_priority PRIORITY_MAP (Val.vstr " важно ") <
      get_priority PRIORITY_MAP (Val.vstr "пусто") :=
  (c6_priority_rule PRIORITY_MAP (Val.vstr " важно ") (Val.vstr "пусто") 1
    (by decide) (by decide) (by decide)).2.2

/-- C5: if any key column or the value column is missing from either
frame, the operation returns (target unchanged, no exception, and neither
input mutated): exactly the validation branch of lines 53-55. -/
theorem c5_missing_column (u : DataFrameUpdater) (df1 df2 : DF) (c : String)
    (hc : c = u.ip_col ∨ c = u.computer_name_col ∨ c = u.value_col)
    (hmiss : c ∉ df1.cols ∨ c ∉ df2.cols) :
    compare_and_update_dataframe u df1 df2 = (some df1, df1, df2) := by
  have hreq : requiredPresent u df1 df2 = false := by
    simp only [requiredPresent, decide_eq_false_iff_not]
    intro hall
    obtain ⟨h1, h2, h3, h4, h5, h6⟩ := hall
    rcases hc with rfl | rfl | rfl
    · rcases hmiss with hm | hm
      · exact hm h1
      · exact hm h2
    · rcases hmiss with hm | hm
      · exact hm h3
      · exact hm h4
    · rcases hmiss with hm | hm
      · exact hm h5
      · exact hm h6
  unfold compare_and_update_dataframe
  simp [hreq]

/-- Witness for C5: the example target without its value column. -/
theorem c5_witness :
    compare_and_update_dataframe exU exT5 exS4 = (some exT5, exT5, exS4) :=
  c5_missing_column exU exT5 exS4 "ценность" (Or.inr (Or.inr rfl)) (Or.inl (by decide))

/-- C7: code bug.  The claim (and spec sections 4.1 and 7) promise a total
operation that never raises, explicitly including inputs with extra
columns present only in source.  But line 83 reads `row[f'{col}_df2']` for
every non-key column of df2, and the pandas merge gives a `_df2`-suffixed
name only to columns present in BOTH frames, so a source-only column such
as z raises KeyError as soon as one replacement fires.  Validation passes
(first conjunct), yet the run aborts with an exception (`none`) instead of
degrading to the unchanged target. -/
theorem c7_extra_column_raises :
    requiredPresent exU exT4 exS7 = true ∧
    (compare_and_update_dataframe exU exT4 exS7).1 = none :=
  ⟨by decide, by decide⟩

/-- C1: for a matched pair, if the source priority strictly exceeds the
target priority then every non-key, non-priority column of df2 reads the
source value in the surviving update result, while columns absent from df2
keep the target values; if the source priority is less than or equal
(ties included) the target row is returned untouched. -/
theorem c1_matched_pair_update (u : DataFrameUpdater) (d1c d2c : List String)
    (t s r : Row) (p1 p2 : Int)
    (h1 : alookup t "priority" = some (Val.vint p1))
    (h2 : alookup s "priority" = some (Val.vint p2)) :
    (p1 < p2 → update_row u d1c d2c t (some s) = some r →
      ((∀ c ∈ d2c, ¬(c = u.ip_col ∨ c = u.computer_name_col ∨ c = "priority") →
          alookup r c = alookup s c) ∧
       (∀ c, c ∉ d2c → alookup r c = alookup t c))) ∧
    (¬p1 < p2 → update_row u d1c d2c t (some s) = some t) := by
  constructor
  · intro hlt hupd
    simp only [update_row, h1, h2, if_pos hlt] at hupd
    obtain ⟨ha, hb⟩ := applyCols_lookup u.ip_col u.computer_name_col d1c s d2c t r hupd
    exact ⟨ha, fun c hc => hb c (Or.inl hc)⟩
  · intro hge
    simp only [update_row, h1, h2, if_neg hge]

/-- Target row of the C1 witness, with its priority cell (rank 1) and a
column extra that the source lacks. -/
def c1t : Row :=
  [("ip", Val.vstr "a"), ("computer_name", Val.vstr "b"),
   ("ценность", Val.vstr "пусто"), ("extra", Val.vstr "keepme"),
   ("priority", Val.vint 1)]

/-- Source row of the C1 witness, rank 5. -/
def c1s : Row :=
  [("ip", Val.vstr "a"), ("computer_name", Val.vstr "b"),
   ("ценность", Val.vstr "важно"), ("priority", Val.vint 5)]

/-- The update result of the C1 witness: value replaced, extra kept. -/
def c1r : Row :=
  [("ip", Val.vstr "a"), ("computer_name", Val.vstr "b"),
   ("ценность", Val.vstr "важно"), ("extra", Val.vstr "keepme"),
   ("priority", Val.vint 1)]

/-- Witness for C1: at rank 1 versus rank 5 the value column takes the
source value and the target-only column extra keeps its value. -/
theorem c1_witness :
    alookup c1r "ценность" = alookup c1s "ценность" ∧
    alookup c1r "extra" = alookup c1t "extra" := by
  have h := c1_matched_pair_update exU
    ["ip", "computer_name", "ценность", "extra", "priority"]
    ["ip", "computer_name", "ценность", "priority"] c1t c1s c1r 1 5
    (by decide) (by decide)
  have h2 := h.1 (by decide) (by decide)
  exact ⟨h2.1 "ценность" (by decide) (by decide), h2.2 "extra" (by decide)⟩

lemma alookup_eq_none {β : Type} :
    ∀ (r : List (String × β)) (c : String), c ∉ r.map Prod.fst → alookup r c = none
  | [], _, _ => rfl
  | (k, v) :: r, c, h => by
    simp only [List.map_cons, List.mem_cons, not_or] at h
    simp only [alookup, if_neg h.1]
    exact alookup_eq_none r c h.2

lemma filter_ne_priority_self (L : List String) (h : "priority" ∉ L) :
    L.filter (fun c => decide (c ≠ "priority")) = L :=
  List.filter_eq_self.mpr (fun a ha => by
    simp only [ne_eq, decide_not, Bool.not_eq_eq_eq_not, Bool.not_true,
      decide_eq_false_iff_not]
    exact fun he => h (he ▸ ha))

/-- Stripping the appended priority column recovers the original row. -/
lemma setCol_strip (v : Val) (r : Row) (h : "priority" ∉ r.map Prod.fst) :
    (setCol "priority" v r).filter (fun p => decide (p.1 ≠ "priority")) = r := by
  unfold setCol
  rw [alookup_eq_none r _ h]
  simp only [Option.isSome_none, Bool.false_eq_true, if_false, List.filter_append]
  have h1 : r.filter (fun p => decide (p.1 ≠ "priority")) = r :=
    List.filter_eq_self.mpr (fun a ha => by
      simp only [ne_eq, decide_not, Bool.not_eq_eq_eq_not, Bool.not_true,
        decide_eq_false_iff_not]
      exact fun he => h (he ▸ List.mem_map_of_mem Prod.fst ha))
  rw [h1]
  simp

/-- The final states of the two frames after a validated run are the
priority-annotated frames, whether or not the update raised. -/
lemma compare_mut (u : DataFrameUpdater) (df1 df2 : DF)
    (hreq : requiredPresent u df1 df2 = true) :
    (compare_and_update_dataframe u df1 df2).2 =
      (addPriority u df1, addPriority u df2) := by
  unfold compare_and_update_dataframe
  rw [hreq]
  cases hmo : mapOptM
      (fun ts => update_row u (addPriority u df1).cols (addPriority u df2).cols ts.1 ts.2)
      (mergePairs u (addPriority u df2).rows (addPriority u df1).rows) <;>
    simp [hmo]

/-- C4 counterexample: on a validated input the caller-supplied frames are
NOT left equal to their values before the call: both come back with an
appended priority column (lines 63-64 assign into df1 and df2 in place),
refuting the no-mutation claim. -/
theorem c4_counterexample :
    (compare_and_update_dataframe exU exT4 exS4).2.1 ≠ exT4 ∧
    (compare_and_update_dataframe exU exT4 exS4).2.2 ≠ exS4 :=
  ⟨by decide, by decide⟩

/-- C4 (amended): the returned record set is freshly built, but the code
mutates BOTH caller-supplied frames by appending a computed priority
column whenever validation succeeds; apart from that appended column the
inputs' columns and row contents are unchanged (and on validation failure
they are untouched, see C5). -/
theorem c4_mutation (u : DataFrameUpdater) (df1 df2 : DF)
    (hreq : requiredPresent u df1 df2 = true)
    (h1 : "priority" ∉ df1.cols) (h2 : "priority" ∉ df2.cols)
    (hw1 : ∀ r ∈ df1.rows, "priority" ∉ r.map Prod.fst)
    (hw2 : ∀ r ∈ df2.rows, "priority" ∉ r.map Prod.fst) :
    ((compare_and_update_dataframe u df1 df2).2.1.cols = df1.cols ++ ["priority"] ∧
     (compare_and_update_dataframe u df1 df2).2.1.rows.map
       (fun r => r.filter (fun p => decide (p.1 ≠ "priority"))) = df1.rows) ∧
    ((compare_and_update_dataframe u df1 df2).2.2.cols = df2.cols ++ ["priority"] ∧
     (compare_and_update_dataframe u df1 df2).2.2.rows.map
       (fun r => r.filter (fun p => decide (p.1 ≠ "priority"))) = df2.rows) := by
  have hmut := compare_mut u df1 df2 hreq
  have hfst : (compare_and_update_dataframe u df1 df2).2.1 = addPriority u df1 := by
    rw [hmut]
  have hsnd : (compare_and_update_dataframe u df1 df2).2.2 = addPriority u df2 := by
    rw [hmut]
  rw [hfst, hsnd]
  refine ⟨⟨?_, ?_⟩, ?_, ?_⟩
  · simp only [addPriority, if_neg h1]
  · simp only [addPriority, List.map_map]
    rw [List.map_eq_map_iff.mpr ?_, List.map_id]
    intro r hr
    exact setCol_strip _ r (hw1 r hr)
  · simp only [addPriority, if_neg h2]
  · simp only [addPriority, List.map_map]
    rw [List.map_eq_map_iff.mpr ?_, List.map_id]
    intro r hr
    exact setCol_strip _ r (hw2 r hr)

/-- Witness for C4 (amended) on the concrete single-row frames. -/
theorem c4_witness :
    ((compare_and_update_dataframe exU exT4 exS4).2.1.cols =
        exT4.cols ++ ["priority"] ∧
     (compare_and_update_dataframe exU exT4 exS4).2.1.rows.map
       (fun r => r.filter (fun p => decide (p.1 ≠ "priority"))) = exT4.rows) ∧
    ((compare_and_update_dataframe exU exT4 exS4).2.2.cols =
        exS4.cols ++ ["priority"] ∧
     (compare_and_update_dataframe exU exT4 exS4).2.2.rows.map
       (fun r => r.filter (fun p => decide (p.1 ≠ "priority"))) = exS4.rows) :=
  c4_mutation exU exT4 exS4 (by decide) (by decide) (by decide)
    (by decide) (by decide)

/-- Result of a validated run whose per-row update succeeded: the updated
rows projected onto the target columns with the priority column removed. -/
lemma compare_res (u : DataFrameUpdater) (df1 df2 : DF)
    (hreq : requiredPresent u df1 df2 = true) (updated : List Row)
    (hmo : mapOptM
        (fun ts => update_row u (addPriority u df1).cols (addPriority u df2).cols ts.1 ts.2)
        (mergePairs u (addPriority u df2).rows (addPriority u df1).rows) = some updated) :
    (compare_and_update_dataframe u df1 df2).1 =
      some ⟨(addPriority u df1).cols.filter (fun c => decide (c ≠ "priority")),
            updated.map (projectRow
              ((addPriority u df1).cols.filter (fun c => decide (c ≠ "priority"))))⟩ := by
  simp [compare_and_update_dataframe, hreq, hmo]

/-- Result of a validated run whose per-row update raised. -/
lemma compare_res_none (u : DataFrameUpdater) (df1 df2 : DF)
    (hreq : requiredPresent u df1 df2 = true)
    (hmo : mapOptM
        (fun ts => update_row u (addPriority u df1).cols (addPriority u df2).cols ts.1 ts.2)
        (mergePairs u (addPriority u df2).rows (addPriority u df1).rows) = none) :
    (compare_and_update_dataframe u df1 df2).1 = none := by
  simp [compare_and_update_dataframe, hreq, hmo]

/-- C3 counterexample: validation succeeds, the target has one record, yet
the output has two — a key duplicated in source multiplies target rows
through the left merge, refuting the exact row-count preservation claim. -/
theorem c3_counterexample :
    requiredPresent exU exT23 exS23 = true ∧
    (compare_and_update_dataframe exU exT23 exS23).1.map (fun d => d.rows.length) =
      some 2 ∧
    exT23.rows.length = 1 :=
  ⟨by decide, by decide, by decide⟩

/-- C3 (amended): on validated inputs the output column set and order
equal the original target's; the row count is preserved provided every
target record matches AT MOST ONE source record (with duplicated source
keys the left merge emits one output row per matched pair instead).  On
validation failure the output equals the unmodified target (see C5). -/
theorem c3_shape (u : DataFrameUpdater) (df1 df2 : DF) (out : DF)
    (hreq : requiredPresent u df1 df2 = true)
    (hp : "priority" ∉ df1.cols)
    (hres : (compare_and_update_dataframe u df1 df2).1 = some out)
    (hm : ∀ t ∈ (addPriority u df1).rows,
      (matchesFor u (addPriority u df2).rows t).length ≤ 1) :
    out.cols = df1.cols ∧ out.rows.length = df1.rows.length := by
  cases hmo : mapOptM
      (fun ts => update_row u (addPriority u df1).cols (addPriority u df2).cols ts.1 ts.2)
      (mergePairs u (addPriority u df2).rows (addPriority u df1).rows) with
  | none =>
    rw [compare_res_none u df1 df2 hreq hmo] at hres
    exact absurd hres (by simp)
  | some updated =>
    rw [compare_res u df1 df2 hreq updated hmo] at hres
    obtain rfl := Option.some_injective _ hres
    have hcols : (addPriority u df1).cols.filter (fun c => decide (c ≠ "priority")) =
        df1.cols := by
      simp only [addPriority, if_neg hp]
      rw [List.filter_append, filter_ne_priority_self df1.cols hp]
      simp
    refine ⟨hcols, ?_⟩
    show (updated.map _).length = df1.rows.length
    rw [List.length_map, mapOptM_length _ _ updated hmo, mergePairs_length _ hm]
    simp [addPriority]

/-- Witness for C3 (amended) on single-row frames with a unique key. -/
theorem c3_witness :
    (⟨["ip", "computer_name", "ценность"], [exRow "a" "b" "важно"]⟩ : DF).cols =
      exT4.cols ∧
    (⟨["ip", "computer_name", "ценность"], [exRow "a" "b" "важно"]⟩ : DF).rows.length =
      exT4.rows.length :=
  c3_shape exU exT4 exS4 ⟨["ip", "computer_name", "ценность"], [exRow "a" "b" "важно"]⟩
    (by decide) (by decide) (by decide) (by decide)

/-- C9 counterexample: with a key duplicated inside T the self-reconcile
is NOT the identity: the pair of records sharing key (a, b) with ranks 1
and 5 cross-match under the self merge, the rank-1 record is replaced by
the rank-5 one, and the output carries four rows instead of two. -/
theorem c9_counterexample :
    (compare_and_update_dataframe exU exT9 exT9).1 ≠ some exT9 ∧
    (compare_and_update_dataframe exU exT9 exT9).1.map (fun d => d.rows.length) =
      some 4 :=
  ⟨by decide, by decide⟩

/-- C9 (amended): reconcile(T, T) = T holds provided the records of T
carry pairwise distinct keys (besides the schema conditions); then every
record matches exactly itself, no record has strictly higher priority than
itself, and the projection restores T exactly. -/
theorem c9_self_idempotent (u : DataFrameUpdater) (T : DF)
    (hreq : requiredPresent u T T = true)
    (hp : "priority" ∉ T.cols)
    (hnd : T.cols.Nodup)
    (hwf : ∀ r ∈ T.rows, r.map Prod.fst = T.cols)
    (hkeys : (T.rows.map (keyOf u)).Nodup) :
    (compare_and_update_dataframe u T T).1 = some T := by
  have hreq' := hreq
  simp only [requiredPresent, decide_eq_true_eq] at hreq'
  obtain ⟨hip1, -, hnm1, -, hv1, -⟩ := hreq'
  have hipp : u.ip_col ≠ "priority" := fun h => hp (h ▸ hip1)
  have hnmp : u.computer_name_col ≠ "priority" := fun h => hp (h ▸ hnm1)
  have hrows : (addPriority u T).rows = T.rows.map (fun r =>
      setCol "priority"
        (Val.vint (get_priority u.priority_map ((alookup r u.value_col).getD (Val.vstr "nan")))) r) :=
    rfl
  set f : Row → Row := fun r =>
    setCol "priority"
      (Val.vint (get_priority u.priority_map ((alookup r u.value_col).getD (Val.vstr "nan")))) r
  have hkeyf : ∀ r : Row, keyOf u (f r) = keyOf u r := fun r =>
    keyOf_setCol hipp hnmp _ r
  have hkeys2 : (T.rows.map f).map (keyOf u) = T.rows.map (keyOf u) := by
    rw [List.map_map]
    exact List.map_eq_map_iff.mpr (fun r _ => hkeyf r)
  have hnd' : ((T.rows.map f).map (keyOf u)).Nodup := by
    rw [hkeys2]
    exact hkeys
  have hmatch : ∀ t' ∈ T.rows.map f, matchesFor u (T.rows.map f) t' = [t'] :=
    fun t' ht' => filter_key_single (keyOf u) (T.rows.map f) t' hnd' ht'
  have hpairs : mergePairs u (T.rows.map f) (T.rows.map f) =
      (T.rows.map f).map (fun t => (t, some t)) :=
    mergePairs_of_self_match _ hmatch
  have hupd : ∀ p ∈ (T.rows.map f).map (fun t => (t, some t)),
      update_row u (addPriority u T).cols (addPriority u T).cols p.1 p.2 =
        some p.1 := by
    intro p hp'
    obtain ⟨t', _, rfl⟩ := List.mem_map.mp hp'
    obtain ⟨r, _, rfl⟩ := List.mem_map.mp (by assumption : t' ∈ T.rows.map f)
    have hpr : alookup (f r) "priority" =
        some (Val.vint (get_priority u.priority_map
          ((alookup r u.value_col).getD (Val.vstr "nan")))) :=
      alookup_setCol_self _ _ _
    simp only [update_row, hpr, lt_self_iff_false, if_false]
  have hmo : mapOptM
      (fun ts => update_row u (addPriority u T).cols (addPriority u T).cols ts.1 ts.2)
      (mergePairs u (addPriority u T).rows (addPriority u T).rows) =
      some (T.rows.map f) := by
    rw [hrows, hpairs]
    have := mapOptM_of_all_some
      (fun ts => update_row u (addPriority u T).cols (addPriority u T).cols ts.1 ts.2)
      Prod.fst ((T.rows.map f).map (fun t => (t, some t))) hupd
    rw [this, List.map_map]
    congr 1
    simp
  rw [compare_res u T T hreq _ hmo]
  have hcols : (addPriority u T).cols.filter (fun c => decide (c ≠ "priority")) =
      T.cols := by
    simp only [addPriority, if_neg hp]
    rw [List.filter_append, filter_ne_priority_self T.cols hp]
    simp
  rw [hcols]
  have hrows2 : (T.rows.map f).map (projectRow T.cols) = T.rows := by
    rw [List.map_map]
    have : T.rows.map (projectRow T.cols ∘ f) = T.rows.map id :=
      List.map_eq_map_iff.mpr (fun r hr => by
        simp only [Function.comp_apply, id_eq]
        have step1 : projectRow T.cols (f r) = projectRow T.cols r := by
          refine projectRow_congr T.cols (fun c hc => ?_)
          have hcp : c ≠ "priority" := by
            intro he
            rw [he] at hc
            exact hp hc
          exact alookup_setCol_other hcp _ r
        rw [step1]
        exact projectRow_self r T.cols (hwf r hr) hnd)
    rw [this, List.map_id]
  rw [hrows2]

/-- Witness for C9 (amended) on a two-record frame with distinct keys. -/
theorem c9_witness : (compare_and_update_dataframe exU exT9w exT9w).1 = some exT9w :=
  c9_self_idempotent exU exT9w (by decide) (by decide) (by decide)
    (by decide) (by decide)

/-- C8: a target record whose key matches no source record passes through
to the output unchanged, value attribute included (given a well-formed
target row over the target schema and an overall run that completes). -/
theorem c8_no_match_passthrough (u : DataFrameUpdater) (df1 df2 : DF)
    (t : Row) (out : DF)
    (hreq : requiredPresent u df1 df2 = true)
    (hres : (compare_and_update_dataframe u df1 df2).1 = some out)
    (ht : t ∈ df1.rows)
    (hwt : t.map Prod.fst = df1.cols)
    (hnd : df1.cols.Nodup)
    (hp : "priority" ∉ df1.cols)
    (hnm : ∀ s ∈ df2.rows, keyOf u s ≠ keyOf u t) :
    t ∈ out.rows := by
  have hreq' := hreq
  simp only [requiredPresent, decide_eq_true_eq] at hreq'
  obtain ⟨hip1, -, hnm1, -, -, -⟩ := hreq'
  have hipp : u.ip_col ≠ "priority" := fun h => hp (h ▸ hip1)
  have hnmp : u.computer_name_col ≠ "priority" := fun h => hp (h ▸ hnm1)
  set f : Row → Row := fun r =>
    setCol "priority"
      (Val.vint (get_priority u.priority_map ((alookup r u.value_col).getD (Val.vstr "nan")))) r
    with hf
  have hrows1 : (addPriority u df1).rows = df1.rows.map f := rfl
  have hrows2 : (addPriority u df2).rows = df2.rows.map f := rfl
  have ht' : f t ∈ (addPriority u df1).rows := by
    rw [hrows1]
    exact List.mem_map_of_mem f ht
  have hmatch : matchesFor u (addPriority u df2).rows (f t) = [] := by
    rw [hrows2]
    refine filter_eq_nil_of_false _ _ (fun s' hs' => ?_)
    obtain ⟨s, hs, rfl⟩ := List.mem_map.mp hs'
    rw [keyOf_setCol hipp hnmp, keyOf_setCol hipp hnmp]
    simp only [decide_eq_false_iff_not]
    exact fun he => hnm s hs he.symm
  have hpairmem : (f t, (none : Option Row)) ∈
      mergePairs u (addPriority u df2).rows (addPriority u df1).rows := by
    refine mergePairs_mem ht' ?_
    unfold pairsFor
    rw [hmatch]
    simp
  cases hmo : mapOptM
      (fun ts => update_row u (addPriority u df1).cols (addPriority u df2).cols ts.1 ts.2)
      (mergePairs u (addPriority u df2).rows (addPriority u df1).rows) with
  | none =>
    rw [compare_res_none u df1 df2 hreq hmo] at hres
    exact absurd hres (by simp)
  | some updated =>
    rw [compare_res u df1 df2 hreq updated hmo] at hres
    obtain rfl := Option.some_injective _ hres
    obtain ⟨y, hy, hyt⟩ := mapOptM_mem _ _ updated hmo _ hpairmem
    simp only [update_row] at hyt
    obtain rfl := Option.some_injective _ hyt
    have hcols : (addPriority u df1).cols.filter (fun c => decide (c ≠ "priority")) =
        df1.cols := by
      simp only [addPriority, if_neg hp]
      rw [List.filter_append, filter_ne_priority_self df1.cols hp]
      simp
    have hproj : projectRow df1.cols (f t) = t := by
      have step1 : projectRow df1.cols (f t) = projectRow df1.cols t := by
        refine projectRow_congr df1.cols (fun c hc => ?_)
        have hcp : c ≠ "priority" := by
          intro he
          rw [he] at hc
          exact hp hc
        exact alookup_setCol_other hcp _ t
      rw [step1]
      exact projectRow_self t df1.cols hwt hnd
    show t ∈ updated.map (projectRow _)
    rw [hcols]
    have := List.mem_map_of_mem (projectRow df1.cols) hy
    rw [hproj] at this
    exact this

/-- Witness for C8: the record keyed (z, z) is untouched when the source
only covers key (a, b). -/
theorem c8_witness : exRow "z" "z" "пусто" ∈ exT8.rows :=
  c8_no_match_passthrough exU exT8 exS4 (exRow "z" "z" "пусто") exT8
    (by decide) (by decide) (by decide) (by decide) (by decide) (by decide)
    (by decide)

/-- C2 counterexample: target has one record with key (a, b) and rank 1
(пусто); source has two records with the same key, ranks 5 (важно) then 3
(средне).  Under the claimed cumulative scan the record would first take
важно (effective priority 5) and then REJECT средне (3 < 5), ending in a
single record reading важно.  The code instead evaluates each match
against the original rank 1 independently and emits one row per matched
pair: two rows, the second reading средне.  This refutes the claim that
each replacement is visible to the evaluation of the next match. -/
theorem c2_counterexample :
    (compare_and_update_dataframe exU exT23 exS23).1 =
      some ⟨["ip", "computer_name", "ценность"],
            [exRow "a" "b" "важно", exRow "a" "b" "средне"]⟩ ∧
    (compare_and_update_dataframe exU exT23 exS23).1.map
      (fun d => d.rows.map (fun r => alookup r "ценность")) =
      some [some (Val.vstr "важно"), some (Val.vstr "средне")] :=
  ⟨by decide, by decide⟩

/-- C2 (amended): when one target record matches several source records,
the matches are processed in source order but each is evaluated
INDEPENDENTLY against the original target record's priority, and each
matched pair contributes its own output row; replacements do not
accumulate.  Here both candidates outrank the original target, so the
output has one row per candidate, each carrying that candidate's value —
the second candidate is accepted regardless of how it compares to the
first (no hypothesis below relates the two source priorities). -/
theorem c2_independent_matches (u : DataFrameUpdater) (df1 df2 : DF)
    (t s1 s2 : Row) (v0 v1 v2 : Val)
    (hreq : requiredPresent u df1 df2 = true)
    (hr1 : df1.rows = [t]) (hr2 : df2.rows = [s1, s2])
    (hp1 : "priority" ∉ df1.cols) (hp2 : "priority" ∉ df2.cols)
    (hcols : ∀ c ∈ df2.cols, c ∈ df1.cols)
    (hws1 : s1.map Prod.fst = df2.cols) (hws2 : s2.map Prod.fst = df2.cols)
    (hk1 : keyOf u t = keyOf u s1) (hk2 : keyOf u t = keyOf u s2)
    (hv0 : alookup t u.value_col = some v0)
    (hv1 : alookup s1 u.value_col = some v1)
    (hv2 : alookup s2 u.value_col = some v2)
    (hvip : u.value_col ≠ u.ip_col) (hvnm : u.value_col ≠ u.computer_name_col)
    (hlt1 : get_priority u.priority_map v0 < get_priority u.priority_map v1)
    (hlt2 : get_priority u.priority_map v0 < get_priority u.priority_map v2) :
    ∃ out, (compare_and_update_dataframe u df1 df2).1 = some out ∧
      out.rows.map (fun r => alookup r u.value_col) = [some v1, some v2] := by
  have hreq' := hreq
  simp only [requiredPresent, decide_eq_true_eq] at hreq'
  obtain ⟨hipA, -, hnmA, -, hvA, hvB⟩ := hreq'
  have hipp : u.ip_col ≠ "priority" := fun h => hp1 (h ▸ hipA)
  have hnmp : u.computer_name_col ≠ "priority" := fun h => hp1 (h ▸ hnmA)
  have hvp : u.value_col ≠ "priority" := fun h => hp1 (h ▸ hvA)
  set f : Row → Row := fun r =>
    setCol "priority"
      (Val.vint (get_priority u.priority_map ((alookup r u.value_col).getD (Val.vstr "nan")))) r
    with hf
  have hrows1 : (addPriority u df1).rows = [f t] := by
    show df1.rows.map f = [f t]
    rw [hr1]
    rfl
  have hrows2 : (addPriority u df2).rows = [f s1, f s2] := by
    show df2.rows.map f = [f s1, f s2]
    rw [hr2]
    rfl
  have hc1 : (addPriority u df1).cols = df1.cols ++ ["priority"] := by
    simp [addPriority, hp1]
  have hc2 : (addPriority u df2).cols = df2.cols ++ ["priority"] := by
    simp [addPriority, hp2]
  have hprt : alookup (f t) "priority" =
      some (Val.vint (get_priority u.priority_map v0)) :=
    calc alookup (f t) "priority"
        = some (Val.vint (get_priority u.priority_map
            ((alookup t u.value_col).getD (Val.vstr "nan")))) :=
          alookup_setCol_self _ _ _
      _ = some (Val.vint (get_priority u.priority_map v0)) := by
          rw [hv0]
          rfl
  have hprs1 : alookup (f s1) "priority" =
      some (Val.vint (get_priority u.priority_map v1)) :=
    calc alookup (f s1) "priority"
        = some (Val.vint (get_priority u.priority_map
            ((alookup s1 u.value_col).getD (Val.vstr "nan")))) :=
          alookup_setCol_self _ _ _
      _ = some (Val.vint (get_priority u.priority_map v1)) := by
          rw [hv1]
          rfl
  have hprs2 : alookup (f s2) "priority" =
      some (Val.vint (get_priority u.priority_map v2)) :=
    calc alookup (f s2) "priority"
        = some (Val.vint (get_priority u.priority_map
            ((alookup s2 u.value_col).getD (Val.vstr "nan")))) :=
          alookup_setCol_self _ _ _
      _ = some (Val.vint (get_priority u.priority_map v2)) := by
          rw [hv2]
          rfl
  have hm : matchesFor u (addPriority u df2).rows (f t) = [f s1, f s2] := by
    rw [hrows2]
    have e1 : decide (keyOf u (f t) = keyOf u (f s1)) = true := by
      rw [keyOf_setCol hipp hnmp, keyOf_setCol hipp hnmp]
      exact decide_eq_true hk1
    have e2 : decide (keyOf u (f t) = keyOf u (f s2)) = true := by
      rw [keyOf_setCol hipp hnmp, keyOf_setCol hipp hnmp]
      exact decide_eq_true hk2
    unfold matchesFor
    simp [List.filter_cons, e1, e2]
  have hpairs : mergePairs u (addPriority u df2).rows (addPriority u df1).rows =
      [(f t, some (f s1)), (f t, some (f s2))] := by
    rw [hrows1]
    simp only [mergePairs, pairsFor, hm, List.isEmpty_cons, Bool.false_eq_true,
      if_false, List.map_cons, List.map_nil, List.append_nil]
  have hcond : ∀ s' : Row, s'.map Prod.fst = df2.cols →
      ∀ c ∈ (addPriority u df2).cols,
        ¬(c = u.ip_col ∨ c = u.computer_name_col ∨ c = "priority") →
        c ∈ (addPriority u df1).cols ∧ (alookup (f s') c).isSome := by
    intro s' hws c hc hne
    rw [hc2] at hc
    rcases List.mem_append.mp hc with hcm | hcm
    · refine ⟨?_, ?_⟩
      · rw [hc1]
        exact List.mem_append_left _ (hcols c hcm)
      · have hcp : c ≠ "priority" := fun he => hp2 (he ▸ hcm)
        rw [alookup_setCol_other hcp]
        refine alookup_isSome_of_mem ?_
        rw [hws]
        exact hcm
    · simp only [List.mem_singleton] at hcm
      exact absurd (Or.inr (Or.inr hcm)) hne
  have happly1 := Option.isSome_iff_exists.mp
    (applyCols_isSome u.ip_col u.computer_name_col (addPriority u df1).cols (f s1)
      (addPriority u df2).cols (f t) (hcond s1 hws1))
  obtain ⟨r1, hr1u⟩ := happly1
  have happly2 := Option.isSome_iff_exists.mp
    (applyCols_isSome u.ip_col u.computer_name_col (addPriority u df1).cols (f s2)
      (addPriority u df2).cols (f t) (hcond s2 hws2))
  obtain ⟨r2, hr2u⟩ := happly2
  have hupd1 : update_row u (addPriority u df1).cols (addPriority u df2).cols
      (f t) (some (f s1)) = some r1 := by
    simp only [update_row, hprt, hprs1, if_pos hlt1]
    exact hr1u
  have hupd2 : update_row u (addPriority u df1).cols (addPriority u df2).cols
      (f t) (some (f s2)) = some r2 := by
    simp only [update_row, hprt, hprs2, if_pos hlt2]
    exact hr2u
  have hvmem2 : u.value_col ∈ (addPriority u df2).cols := by
    rw [hc2]
    exact List.mem_append_left _ hvB
  have hvne : ¬(u.value_col = u.ip_col ∨ u.value_col = u.computer_name_col ∨
      u.value_col = "priority") := by
    intro h
    rcases h with h | h | h
    · exact hvip h
    · exact hvnm h
    · exact hvp h
  have hval1 : alookup r1 u.value_col = some v1 := by
    have := (applyCols_lookup u.ip_col u.computer_name_col (addPriority u df1).cols
      (f s1) (addPriority u df2).cols (f t) r1 hr1u).1 u.value_col hvmem2 hvne
    rw [this, alookup_setCol_other hvp, hv1]
  have hval2 : alookup r2 u.value_col = some v2 := by
    have := (applyCols_lookup u.ip_col u.computer_name_col (addPriority u df1).cols
      (f s2) (addPriority u df2).cols (f t) r2 hr2u).1 u.value_col hvmem2 hvne
    rw [this, alookup_setCol_other hvp, hv2]
  have hmo : mapOptM
      (fun ts => update_row u (addPriority u df1).cols (addPriority u df2).cols ts.1 ts.2)
      (mergePairs u (addPriority u df2).rows (addPriority u df1).rows) =
      some [r1, r2] := by
    rw [hpairs]
    simp only [mapOptM, hupd1, hupd2]
  refine ⟨_, compare_res u df1 df2 hreq [r1, r2] hmo, ?_⟩
  have hcolsOut : (addPriority u df1).cols.filter (fun c => decide (c ≠ "priority")) =
      df1.cols := by
    rw [hc1, List.filter_append, filter_ne_priority_self df1.cols hp1]
    simp
  show ([r1, r2].map (projectRow _)).map (fun r => alookup r u.value_col) = _
  rw [hcolsOut]
  simp only [List.map_cons, List.map_nil]
  rw [alookup_projectRow df1.cols hvA, alookup_projectRow df1.cols hvA, hval1, hval2]
  simp

/-- Witness for C2 (amended) at the concrete duplicated-key input. -/
theorem c2_witness :
    ∃ out, (compare_and_update_dataframe exU exT23 exS23).1 = some out ∧
      out.rows.map (fun r => alookup r exU.value_col) =
        [some (Val.vstr "важно"), some (Val.vstr "средне")] :=
  c2_independent_matches exU exT23 exS23
    (exRow "a" "b" "пусто") (exRow "a" "b" "важно") (exRow "a" "b" "средне")
    (Val.vstr "пусто") (Val.vstr "важно") (Val.vstr "средне")
    (by decide) (by decide) (by decide) (by decide) (by decide) (by decide)
    (by decide) (by decide) (by decide) (by decide) (by decide) (by decide)
    (by decide) (by decide) (by decide) (by decide) (by decide)
